/-
Verification of the NSE options fetcher (src/nse_fetcher.py) against its
specification.

Shallow embedding conventions:
* Calendar dates and timestamps are modelled as integers (days since an
  arbitrary epoch); `datetime.now()` is a fixed parameter `now` of the
  environment, `timedelta(days=d)` is integer subtraction/addition.
* Decimal (Python float) quote fields are modelled as exact rationals `ℚ`.
* JSON payloads are modelled structurally: the expiry-list endpoint yields a
  list of expiry-date strings, the quote endpoint a list of `ApiRow`s whose
  fields mirror the upstream `FH_*` keys.  An HTTP response is
  `RawOutcome α`: a 200 answer carries `some` payload, a non-200 answer (which
  `fetch_url` turns into `None`) carries `none`, a transient
  `aiohttp.ClientError`/`asyncio.TimeoutError` is `transient`, any other
  exception is `fatal`.
* A Python function that may raise returns `Except String _`; the string is
  `str(e)` of the exception.  Mutation of the SQLite store is explicit state
  passing of a `Store` value.
* `datetime.strptime(s, "%d-%b-%Y")` is an external library call, modelled as
  a parameter `parse : String → Option Int` of the environment (`none` =
  `ValueError`).
-/
import Mathlib

namespace NseFetcher

/-! ## Persistence store (nse_fetcher.py lines 59-107, 269-320)

The SQLite table `option_data` has the uniqueness constraint
`UNIQUE(symbol, expiry_date, strike_price, option_type, timestamp)` and the
five key columns are `NOT NULL`.  We model the table as a list of rows in
insertion order; `INSERT OR IGNORE` appends unless the natural key is already
present, and a `NULL` in a `NOT NULL` key column makes the insert fail with
`sqlite3.IntegrityError`, which `save_option_data` swallows (`except ... pass`).
-/

/-- One row of the `option_data` table.  The five natural-key columns are
`NOT NULL`, the remaining quote columns are nullable (`Option`). -/
structure DbRow where
  symbol : String
  expiry_date : String
  strike_price : ℚ
  option_type : String
  timestamp : String
  open_price : Option ℚ
  high : Option ℚ
  low : Option ℚ
  close : Option ℚ
  ltp : Option ℚ
  prev_close : Option ℚ
  settle_price : Option ℚ
  volume : Option Int
  turnover : Option ℚ
  open_interest : Option Int
  change_in_oi : Option Int
  market_lot : Option Int
  underlying_value : Option ℚ
  deriving DecidableEq

/-- One upstream quote row, keyed by the wire `FH_*` field names.
`FH_STRIKE_PRICE` is accessed by direct indexing in the probe
(`item['FH_STRIKE_PRICE']`), so it is modelled as always present; the other
fields are read with `.get` and may be absent. -/
structure ApiRow where
  FH_STRIKE_PRICE : ℚ
  FH_EXPIRY_DT : Option String
  FH_OPTION_TYPE : Option String
  FH_TIMESTAMP : Option String
  FH_OPENING_PRICE : Option ℚ
  FH_TRADE_HIGH_PRICE : Option ℚ
  FH_TRADE_LOW_PRICE : Option ℚ
  FH_CLOSING_PRICE : Option ℚ
  FH_LAST_TRADED_PRICE : Option ℚ
  FH_PREV_CLS : Option ℚ
  FH_SETTLE_PRICE : Option ℚ
  FH_TOT_TRADED_QTY : Option Int
  FH_TOT_TRADED_VAL : Option ℚ
  FH_OPEN_INT : Option Int
  FH_CHANGE_IN_OI : Option Int
  FH_MARKET_LOT : Option Int
  FH_UNDERLYING_VALUE : Option ℚ
  deriving DecidableEq

/-- The natural key `(symbol, expiry_date, strike_price, option_type,
timestamp)` of a stored row. -/
def naturalKey (r : DbRow) : String × String × ℚ × String × String :=
  (r.symbol, r.expiry_date, r.strike_price, r.option_type, r.timestamp)

/-- Test whether some stored row already carries natural key `k`. -/
def hasKey (db : List DbRow) (k : String × String × ℚ × String × String) : Bool :=
  db.any fun r => naturalKey r = k

/-- The row built by the `INSERT` statement of `save_option_data` from one
upstream item, given that the three nullable key fields are present. -/
def rowFromItem (symbol ed ot ts : String) (item : ApiRow) : DbRow :=
  { symbol := symbol
    expiry_date := ed
    strike_price := item.FH_STRIKE_PRICE
    option_type := ot
    timestamp := ts
    open_price := item.FH_OPENING_PRICE
    high := item.FH_TRADE_HIGH_PRICE
    low := item.FH_TRADE_LOW_PRICE
    close := item.FH_CLOSING_PRICE
    ltp := item.FH_LAST_TRADED_PRICE
    prev_close := item.FH_PREV_CLS
    settle_price := item.FH_SETTLE_PRICE
    volume := item.FH_TOT_TRADED_QTY
    turnover := item.FH_TOT_TRADED_VAL
    open_interest := item.FH_OPEN_INT
    change_in_oi := item.FH_CHANGE_IN_OI
    market_lot := item.FH_MARKET_LOT
    underlying_value := item.FH_UNDERLYING_VALUE }

/-- One `INSERT OR IGNORE` of one item (the loop body of `save_option_data`,
lines 274-304): a missing `NOT NULL` key column raises `IntegrityError`,
which the `except` clause turns into a no-op; a duplicate natural key is
ignored by `OR IGNORE`; otherwise the row is appended. -/
def insertRowOrIgnore (db : List DbRow) (symbol : String) (item : ApiRow) :
    List DbRow :=
  match item.FH_EXPIRY_DT, item.FH_OPTION_TYPE, item.FH_TIMESTAMP with
  | some ed, some ot, some ts =>
    let row := rowFromItem symbol ed ot ts item
    if hasKey db (naturalKey row) then db else db ++ [row]
  | _, _, _ => db

/-- Function `save_option_data(data_list, symbol)` (lines 269-307): insert each item
in order with `INSERT OR IGNORE`. -/
def save_option_data (db : List DbRow) (data_list : List ApiRow)
    (symbol : String) : List DbRow :=
  data_list.foldl (fun d it => insertRowOrIgnore d symbol it) db

/-- One row of the `fetch_log` table (lines 90-100, 309-320). -/
structure LogEntry where
  run_type : String
  symbol : String
  status : String
  records_fetched : Int
  error_message : Option String
  deriving DecidableEq

/-- The whole mutable SQLite database: quote rows plus audit log, each in
insertion order. -/
structure Store where
  optionData : List DbRow
  fetchLog : List LogEntry
  deriving DecidableEq

/-- Function `log_fetch(run_type, symbol, status, records, error)` (lines 309-320):
append one audit row. -/
def log_fetch (st : Store) (run_type symbol status : String) (records : Int)
    (error : Option String) : Store :=
  { st with fetchLog := st.fetchLog ++ [⟨run_type, symbol, status, records, error⟩] }

/-! ## Rate-limited HTTP client (lines 117-130)

`fetch_url` is decorated with
`@backoff.on_exception(backoff.expo, (aiohttp.ClientError, asyncio.TimeoutError), max_tries=3)`:
a transient exception is retried with exponential backoff up to 3 total
attempts, after which the last exception is re-raised; any other exception is
re-raised immediately (the inner `except` logs and re-raises, and `backoff`
only retries the two listed exception types).  The backoff sleep times and the
3-slot semaphore are real-time/concurrency behaviour with no effect on the
value computed, so they are not part of the model.  The per-attempt outcome is
supplied by an oracle indexed by the attempt number (0-based). -/

/-- Outcome of one raw HTTP attempt. -/
inductive RawOutcome (α : Type) where
  /-- HTTP 200 with payload `some d`, or a non-200 status which `fetch_url`
  converts to `None` (`none` here). -/
  | ok (d : Option α)
  /-- An `aiohttp.ClientError` or `asyncio.TimeoutError`: retried by `backoff`. -/
  | transient (e : String)
  /-- any other exception: propagates immediately. -/
  | fatal (e : String)
  deriving DecidableEq

/-- The retry loop of the `backoff` decorator around one `fetch_url` body
execution: `triesLeft` attempts remain, `k` attempts were already made.
Returns the result together with the total number of attempts performed. -/
def fetchUrlGo {α : Type} (oracle : Nat → RawOutcome α) :
    Nat → Nat → Except String (Option α) × Nat
  | 0, k => (.error "backoff: no tries", k)
  | t + 1, k =>
    match oracle k with
    | .ok d => (.ok d, k + 1)
    | .fatal e => (.error e, k + 1)
    | .transient e =>
      if t = 0 then (.error e, k + 1) else fetchUrlGo oracle t (k + 1)

/-- Function `fetch_url` (lines 117-130) with `max_tries=3`: result plus the number of
attempts made. -/
def fetchUrl {α : Type} (oracle : Nat → RawOutcome α) :
    Except String (Option α) × Nat :=
  fetchUrlGo oracle 3 0

/-! ## Expiry & strike discovery helpers (inside `fetch_stock_historical`) -/

/-- The filtering loop of lines 172-179: for each accumulated
`(expiry_str, year)` pair, parse the date string with
`datetime.strptime(expiry_str, "%d-%b-%Y")`; a parse failure is swallowed
(`except: pass`), and a parsed date qualifies when
`expiry_date >= start_date`.  Order of the accumulated list is preserved;
no sort is applied. -/
def relevantExpiries (parse : String → Option Int) (start_date : Int)
    (all_expiries : List (String × Int)) : List (String × Int × Int) :=
  all_expiries.filterMap fun p =>
    match parse p.1 with
    | some d => if start_date ≤ d then some (p.1, p.2, d) else none
    | none => none

/-- Lines 216-220: the `atm_strikes` candidate set.  `strikes` is the
deduplicated probe strike list, `underlying` the probe's
`FH_UNDERLYING_VALUE` (defaulted to 0 when absent).  When the underlying is
positive keep only strikes within ±10% of it, otherwise keep all strikes. -/
def qualifyingStrikes (strikes : List ℚ) (underlying : ℚ) : List ℚ :=
  if 0 < underlying then
    strikes.filter fun s =>
      decide (9 / 10 * underlying ≤ s) && decide (s ≤ 11 / 10 * underlying)
  else strikes

/-- Line 222, `atm_strikes = sorted(atm_strikes)[:10]`: sort ascending and
keep at most the first 10.  Python's `sorted` is modelled by insertion sort;
the input is duplicate-free (it came from `list(set(...))`), so any
ascending sort yields this same list. -/
def selectAtmStrikes (strikes : List ℚ) (underlying : ℚ) : List ℚ :=
  (List.insertionSort (· ≤ ·) (qualifyingStrikes strikes underlying)).take 10

/-! ## Fetch orchestrator (lines 141-267, 346-400)

The orchestrator's network calls are URL string builds; we model a quote-data
request by its query parameters.  `fetch_url` may raise (transport error after
retries, or an unexpected exception), so every helper that performs a request
returns `Except String _` together with the store reached so far (partial
writes persist across an exception, as each SQLite statement commits
independently). -/

/-- The query string of one `historicalOR/foCPV` data request
(lines 203-205 and 228-231).  `strike = none` is the strike-universe probe,
which carries no `strikePrice` parameter. -/
structure DataQuery where
  fromDate : Int
  toDate : Int
  symbol : String
  year : Int
  expiry : String
  optionType : String
  strike : Option ℚ
  deriving DecidableEq

/-- The external world of one run: the clock and the upstream API.  Each
oracle is indexed by the request parameters and the retry-attempt number. -/
structure FetchEnv where
  /-- Clock value `datetime.now()` as a day count (constant during a run). -/
  now : Int
  /-- Clock value `datetime.now().year`. -/
  nowYear : Int
  /-- Date parsing `datetime.strptime(s, "%d-%b-%Y")`, as a day count. -/
  parse : String → Option Int
  /-- the `expireDts` endpoint (line 157): payload is the `expiresDts` list;
  `none` stands for a non-200 reply or a JSON answer without that key. -/
  expiryOracle : String → Int → Nat → RawOutcome (List String)
  /-- the `foCPV` quote endpoint: payload is the `data` row list; `none`
  stands for a non-200 reply or a JSON answer without a `data` key. -/
  dataOracle : DataQuery → Nat → RawOutcome (List ApiRow)

/-- Lines 156-161: accumulate `(expiry_str, year)` pairs over the configured
years.  An exception from `fetch_url` aborts the loop and propagates. -/
def getAllExpiries (env : FetchEnv) (symbol : String) (years : List Int) :
    Except String (List (String × Int)) :=
  years.foldlM
    (fun acc y =>
      match (fetchUrl (env.expiryOracle symbol y)).1 with
      | .error e => .error e
      | .ok none => .ok acc
      | .ok (some ds) => .ok (acc ++ ds.map fun e => (e, y)))
    []

/-- Lines 228-239 (one iteration of the inner loop): fetch one
(strike, option-type) data page; on non-empty data save it and credit its
row count. -/
def processOne (env : FetchEnv) (symbol : String) (year : Int) (expiry : String)
    (fromDate toDate : Int) (strike : ℚ) (optionType : String) (st : Store) :
    Except String Int × Store :=
  match (fetchUrl (env.dataOracle
      ⟨fromDate, toDate, symbol, year, expiry, optionType, some strike⟩)).1 with
  | .error e => (.error e, st)
  | .ok none => (.ok 0, st)
  | .ok (some rows) =>
    if rows.isEmpty then (.ok 0, st)
    else (.ok rows.length,
      { st with optionData := save_option_data st.optionData rows symbol })

/-- Lines 226-239: the per-strike loop, option types `CE` then `PE`,
accumulating `expiry_records`. -/
def processStrikes (env : FetchEnv) (symbol : String) (year : Int)
    (expiry : String) (fromDate toDate : Int) :
    List ℚ → Store → Int → Except String Int × Store
  | [], st, acc => (.ok acc, st)
  | strike :: rest, st, acc =>
    match processOne env symbol year expiry fromDate toDate strike "CE" st with
    | (.error e, st1) => (.error e, st1)
    | (.ok n1, st1) =>
      match processOne env symbol year expiry fromDate toDate strike "PE" st1 with
      | (.error e, st2) => (.error e, st2)
      | (.ok n2, st2) =>
        processStrikes env symbol year expiry fromDate toDate rest st2
          (acc + n1 + n2)

/-- Lines 185-242: the per-expiry loop over the retained expiries, with the
fetch-window computation, the strike-universe probe and the at-the-money
selection, accumulating `total_records`. -/
def processExpiries (env : FetchEnv) (symbol : String) (start_date : Int) :
    List (String × Int × Int) → Store → Int → Except String Int × Store
  | [], st, total => (.ok total, st)
  | (expiry_str, year, expiry_date) :: rest, st, total =>
    let fetch_end := min expiry_date env.now
    let fetch_end := if env.now < fetch_end then env.now else fetch_end
    let fetch_start := max (expiry_date - 90) start_date
    if fetch_end ≤ fetch_start then
      processExpiries env symbol start_date rest st total
    else
      match (fetchUrl (env.dataOracle
          ⟨fetch_end, fetch_end, symbol, year, expiry_str, "CE", none⟩)).1 with
      | .error e => (.error e, st)
      | .ok none => processExpiries env symbol start_date rest st total
      | .ok (some rows) =>
        match rows with
        | [] => processExpiries env symbol start_date rest st total
        | r0 :: _ =>
          let strikes := (rows.map fun it => it.FH_STRIKE_PRICE).dedup
          let underlying_value := r0.FH_UNDERLYING_VALUE.getD 0
          let atm_strikes := selectAtmStrikes strikes underlying_value
          match processStrikes env symbol year expiry_str fetch_start fetch_end
              atm_strikes st 0 with
          | (.error e, st1) => (.error e, st1)
          | (.ok expiry_records, st1) =>
            processExpiries env symbol start_date rest st1
              (total + expiry_records)

/-- Lines 146-151: `years_to_check` is `some _` when the instance attribute
exists (`hasattr(self, 'years_to_check')`) and `none` otherwise, in which
case the last four calendar years are used. -/
def yearsToCheck (env : FetchEnv) (years_to_check : Option (List Int)) :
    List Int :=
  match years_to_check with
  | some ys => ys
  | none => [env.nowYear - 3, env.nowYear - 2, env.nowYear - 1, env.nowYear]

/-- The `try` block of `fetch_stock_historical` (lines 145-246). -/
def fetchBody (env : FetchEnv) (years_to_check : Option (List Int))
    (symbol : String) (days : Int) (st : Store) : Except String Int × Store :=
  match getAllExpiries env symbol (yearsToCheck env years_to_check) with
  | .error e => (.error e, st)
  | .ok all_expiries =>
    if all_expiries.isEmpty then
      (.ok 0, log_fetch st "historical" symbol "NO_EXPIRIES" 0 none)
    else
      let start_date := env.now - days
      let relevant := relevantExpiries env.parse start_date all_expiries
      match processExpiries env symbol start_date (relevant.take 3) st 0 with
      | (.error e, st1) => (.error e, st1)
      | (.ok total_records, st1) =>
        (.ok total_records,
          log_fetch st1 "historical" symbol "SUCCESS" total_records none)

/-- Method `fetch_stock_historical` (lines 141-251): the `try` body wrapped in the
symbol-level `except Exception` handler, which records an ERROR audit entry
with zero records and returns 0.  The result is still `Except`-typed because
a Python coroutine may in principle raise; the theorems show it never does. -/
def fetch_stock_historical (env : FetchEnv) (years_to_check : Option (List Int))
    (symbol : String) (days : Int) (st : Store) : Except String Int × Store :=
  match fetchBody env years_to_check symbol days st with
  | (.ok n, st1) => (.ok n, st1)
  | (.error e, st1) =>
    (.ok 0, log_fetch st1 "historical" symbol "ERROR" 0 (some e))

/-- Method `fetch_daily_data` (lines 253-267): a 2-day historical fetch wrapped in
its own `try`/`except`; the success path appends a `daily`/`SUCCESS` audit
entry, the handler a `daily`/`ERROR` one. -/
def fetch_daily_data (env : FetchEnv) (years_to_check : Option (List Int))
    (symbol : String) (st : Store) : Except String Int × Store :=
  match fetch_stock_historical env years_to_check symbol 2 st with
  | (.ok records, st1) =>
    (.ok records, log_fetch st1 "daily" symbol "SUCCESS" records none)
  | (.error e, st1) => (.ok 0, log_fetch st1 "daily" symbol "ERROR" 0 (some e))

/-- The symbol loop of `run_historical_fetch` (lines 360-370): process the
stock list sequentially, collecting `(symbol, records)` pairs.  Construction
of the fetcher and the config/environment-variable handling (lines 348-358)
are outside this loop and modelled separately (`NSEOptionsFetcher_init`).
An exception escaping `fetch_stock_historical` would abort the whole batch,
hence the `Except` result. -/
def run_historical_fetch (env : FetchEnv) (years_to_check : Option (List Int))
    (days : Int) : List String → Store →
      Except String (List (String × Int)) × Store
  | [], st => (.ok [], st)
  | symbol :: rest, st =>
    match fetch_stock_historical env years_to_check symbol days st with
    | (.error e, st1) => (.error e, st1)
    | (.ok records, st1) =>
      match run_historical_fetch env years_to_check days rest st1 with
      | (.error e, st2) => (.error e, st2)
      | (.ok tail, st2) => (.ok ((symbol, records) :: tail), st2)

/-! ## Constructor and configuration loading (lines 19-57)

`load_config` assigns `config` inside the `if os.path.exists('config.json')`
branch (line 56).  By Python's scoping rule, any name assigned anywhere in a
function body is a local variable of the whole function, so the read
`config.get('years', ...)` on line 51 refers to the local `config`, which has
no value yet at that point: the read raises `UnboundLocalError` on every
call.  We model the local as an `Option` that is `none` until its first
assignment; reading it while `none` is the unbound-name error. -/

/-- Exceptions of the constructor path. -/
inductive PyError where
  | unboundLocalError (name : String)
  deriving DecidableEq

/-- The parsed content of `config.json`. -/
structure ConfigJson where
  years : Option (List Int)
  stocks : Option (List String)
  deriving DecidableEq

/-- The default NIFTY50 stock list (lines 39-50). -/
def nifty50_default : List String :=
  ["RELIANCE", "TCS", "HDFCBANK", "INFY", "ICICIBANK",
   "SBIN", "BHARTIARTL", "KOTAKBANK", "ITC", "AXISBANK",
   "LT", "BAJFINANCE", "HDFC", "MARUTI", "HINDUNILVR",
   "ASIANPAINT", "HCLTECH", "WIPRO", "TATAMOTORS", "SUNPHARMA",
   "TITAN", "ULTRACEMCO", "NESTLEIND", "ONGC", "POWERGRID",
   "NTPC", "M&M", "BAJAJFINSV", "TATASTEEL", "INDUSINDBK",
   "TECHM", "JSWSTEEL", "ADANIENT", "GRASIM", "DIVISLAB",
   "CIPLA", "DRREDDY", "COALINDIA", "BRITANNIA", "EICHERMOT",
   "HINDALCO", "ADANIPORTS", "SHREECEM", "UPL", "VEDL",
   "BPCL", "HEROMOTOCO", "TATACONSUM", "SBILIFE", "BAJAJ-AUTO"]

/-- The attributes `load_config` is meant to set on the instance. -/
structure LoadedConfig where
  nifty50_stocks : List String
  years_to_check : Option (List Int)
  deriving DecidableEq

/-- Method `load_config` (lines 36-57).  `configFileExists` models
`os.path.exists('config.json')` and `configFile` the parsed file content.
The local variable `config` starts unbound (`none`); the branch after the
first read is written out faithfully even though it is unreachable. -/
def load_config (configFileExists : Bool) (configFile : ConfigJson) :
    Except PyError LoadedConfig :=
  let nifty50_stocks := nifty50_default
  let config : Option ConfigJson := none
  -- line 51: `self.years_to_check = config.get('years', [2022, 2023, 2024, 2025])`
  match config with
  | none => .error (.unboundLocalError "config")
  | some c =>
    let years_to_check := c.years.getD [2022, 2023, 2024, 2025]
    -- lines 54-57: the config-file stock override
    let nifty50_stocks :=
      if configFileExists then configFile.stocks.getD nifty50_stocks
      else nifty50_stocks
    .ok { nifty50_stocks := nifty50_stocks, years_to_check := some years_to_check }

/-- The partially initialised fetcher the constructor would produce. -/
structure FetcherState where
  db_path : String
  nifty50_stocks : List String
  years_to_check : Option (List Int)
  deriving DecidableEq

/-- Constructor `NSEOptionsFetcher.__init__` (lines 19-34): after setting headers it calls
`load_config` then `_init_database`; an exception from `load_config`
propagates out of the constructor. -/
def NSEOptionsFetcher_init (db_path : String) (configFileExists : Bool)
    (configFile : ConfigJson) : Except PyError FetcherState :=
  match load_config configFileExists configFile with
  | .error e => .error e
  | .ok cfg =>
    .ok { db_path := db_path
          nifty50_stocks := cfg.nifty50_stocks
          years_to_check := cfg.years_to_check }

/-! ## Store lemmas -/

theorem hasKey_append (db : List DbRow) (r : DbRow)
    (k : String × String × ℚ × String × String) :
    hasKey (db ++ [r]) k = (hasKey db k || decide (naturalKey r = k)) := by
  simp [hasKey, List.any_append]

theorem insertRowOrIgnore_shape (db : List DbRow) (s : String) (it : ApiRow) :
    insertRowOrIgnore db s it = db ∨
      ∃ r, insertRowOrIgnore db s it = db ++ [r] := by
  unfold insertRowOrIgnore
  rcases hE : it.FH_EXPIRY_DT with _ | ed <;>
    rcases hO : it.FH_OPTION_TYPE with _ | ot <;>
      rcases hT : it.FH_TIMESTAMP with _ | ts
  all_goals try exact Or.inl rfl
  dsimp only
  split
  · exact Or.inl rfl
  · exact Or.inr ⟨_, rfl⟩

theorem insertRowOrIgnore_invalid (db : List DbRow) (s : String) (it : ApiRow)
    (h : it.FH_EXPIRY_DT = none ∨ it.FH_OPTION_TYPE = none ∨
      it.FH_TIMESTAMP = none) :
    insertRowOrIgnore db s it = db := by
  unfold insertRowOrIgnore
  rcases hE : it.FH_EXPIRY_DT with _ | ed <;>
    rcases hO : it.FH_OPTION_TYPE with _ | ot <;>
      rcases hT : it.FH_TIMESTAMP with _ | ts <;>
        simp_all

theorem hasKey_insertRowOrIgnore_of_hasKey (db : List DbRow) (s : String)
    (it : ApiRow) (k : String × String × ℚ × String × String)
    (h : hasKey db k = true) :
    hasKey (insertRowOrIgnore db s it) k = true := by
  rcases insertRowOrIgnore_shape db s it with h1 | ⟨r, h1⟩ <;> rw [h1]
  · exact h
  · rw [hasKey_append, h, Bool.true_or]

theorem save_cons (db : List DbRow) (it : ApiRow) (l : List ApiRow)
    (s : String) :
    save_option_data db (it :: l) s =
      save_option_data (insertRowOrIgnore db s it) l s := rfl

theorem hasKey_save_of_hasKey (l : List ApiRow) (db : List DbRow) (s : String)
    (k : String × String × ℚ × String × String) (h : hasKey db k = true) :
    hasKey (save_option_data db l s) k = true := by
  induction l generalizing db with
  | nil => exact h
  | cons it l ih =>
    rw [save_cons]
    exact ih _ (hasKey_insertRowOrIgnore_of_hasKey db s it k h)

theorem hasKey_insertRowOrIgnore_self (db : List DbRow) (s : String)
    (it : ApiRow) (ed ot ts : String) (hE : it.FH_EXPIRY_DT = some ed)
    (hO : it.FH_OPTION_TYPE = some ot) (hT : it.FH_TIMESTAMP = some ts) :
    hasKey (insertRowOrIgnore db s it)
      (naturalKey (rowFromItem s ed ot ts it)) = true := by
  unfold insertRowOrIgnore
  rw [hE, hO, hT]
  dsimp only
  split
  · assumption
  · rw [hasKey_append]
    simp

theorem insertRowOrIgnore_of_hasKey (db : List DbRow) (s : String) (it : ApiRow)
    (ed ot ts : String) (hE : it.FH_EXPIRY_DT = some ed)
    (hO : it.FH_OPTION_TYPE = some ot) (hT : it.FH_TIMESTAMP = some ts)
    (h : hasKey db (naturalKey (rowFromItem s ed ot ts it)) = true) :
    insertRowOrIgnore db s it = db := by
  unfold insertRowOrIgnore
  rw [hE, hO, hT]
  dsimp only
  rw [if_pos h]

/-- C2 -- Idempotent upsert: writing the identical record sequence twice
through `save_option_data` leaves the same table content as writing it once,
and an item whose natural key `(symbol, expiry_date, strike_price,
option_type, timestamp)` is already stored is silently skipped (the insert is
a no-op, not an error). -/
theorem upsert_idempotent (db : List DbRow) (l : List ApiRow) (s : String) :
    save_option_data (save_option_data db l s) l s = save_option_data db l s ∧
    (∀ it ed ot ts, it.FH_EXPIRY_DT = some ed → it.FH_OPTION_TYPE = some ot →
      it.FH_TIMESTAMP = some ts →
      hasKey db (naturalKey (rowFromItem s ed ot ts it)) = true →
      insertRowOrIgnore db s it = db) := by
  constructor
  · induction l generalizing db with
    | nil => rfl
    | cons it l ih =>
      have hD :
          insertRowOrIgnore (save_option_data (insertRowOrIgnore db s it) l s)
            s it = save_option_data (insertRowOrIgnore db s it) l s := by
        rcases hE : it.FH_EXPIRY_DT with _ | ed
        · exact insertRowOrIgnore_invalid _ _ _ (Or.inl hE)
        rcases hO : it.FH_OPTION_TYPE with _ | ot
        · exact insertRowOrIgnore_invalid _ _ _ (Or.inr (Or.inl hO))
        rcases hT : it.FH_TIMESTAMP with _ | ts
        · exact insertRowOrIgnore_invalid _ _ _ (Or.inr (Or.inr hT))
        exact insertRowOrIgnore_of_hasKey _ _ _ _ _ _ hE hO hT
          (hasKey_save_of_hasKey _ _ _ _
            (hasKey_insertRowOrIgnore_self db s it ed ot ts hE hO hT))
      calc save_option_data (save_option_data db (it :: l) s) (it :: l) s
          = save_option_data
              (insertRowOrIgnore (save_option_data (insertRowOrIgnore db s it) l s) s it)
              l s := rfl
        _ = save_option_data (save_option_data (insertRowOrIgnore db s it) l s)
              l s := by rw [hD]
        _ = save_option_data (insertRowOrIgnore db s it) l s := ih _
  · intro it ed ot ts hE hO hT h
    exact insertRowOrIgnore_of_hasKey db s it ed ot ts hE hO hT h

/-- A concrete upstream row used by witnesses. -/
def sampleItem : ApiRow :=
  { FH_STRIKE_PRICE := 100
    FH_EXPIRY_DT := some "25-Dec-2025"
    FH_OPTION_TYPE := some "CE"
    FH_TIMESTAMP := some "01-Dec-2025"
    FH_OPENING_PRICE := none
    FH_TRADE_HIGH_PRICE := none
    FH_TRADE_LOW_PRICE := none
    FH_CLOSING_PRICE := none
    FH_LAST_TRADED_PRICE := none
    FH_PREV_CLS := none
    FH_SETTLE_PRICE := none
    FH_TOT_TRADED_QTY := none
    FH_TOT_TRADED_VAL := none
    FH_OPEN_INT := none
    FH_CHANGE_IN_OI := none
    FH_MARKET_LOT := none
    FH_UNDERLYING_VALUE := none }

/-- Witness for C2 at a concrete store and record sequence. -/
theorem upsert_idempotent_witness :
    save_option_data (save_option_data [] [sampleItem] "TEST") [sampleItem]
        "TEST" =
      save_option_data [] [sampleItem] "TEST" :=
  (upsert_idempotent [] [sampleItem] "TEST").1

/-- C3 -- Retry bound: when every attempt fails transiently, `fetch_url`
makes exactly 3 attempts (so no fourth attempt exists) and the transport
error of the third attempt propagates to the caller. -/
theorem retry_bound {α : Type} (oracle : Nat → RawOutcome α) (e : Nat → String)
    (h : ∀ k, oracle k = .transient (e k)) :
    fetchUrl oracle = (.error (e 2), 3) := by
  unfold fetchUrl
  rw [fetchUrlGo, h 0]
  simp only [reduceIte]
  rw [fetchUrlGo, h 1]
  simp only [reduceIte]
  rw [fetchUrlGo, h 2]
  simp

/-- Witness for C3: a client that times out on every attempt. -/
theorem retry_bound_witness :
    fetchUrl (α := List String) (fun _ => .transient "timeout") =
      (.error "timeout", 3) :=
  retry_bound (fun _ => .transient "timeout") (fun _ => "timeout")
    (fun _ => rfl)

/-- C4 -- Strike bounding: the kept strike list has at most 10 elements;
whenever the probed underlying value is positive every kept strike lies
within ±10% of it; and the kept strikes are the smallest of the qualifying
strikes, in ascending order (every kept strike is at most every qualifying
strike that was not kept). -/
theorem strike_bounding (strikes : List ℚ) (u : ℚ) :
    (selectAtmStrikes strikes u).length ≤ 10 ∧
    (0 < u → ∀ s ∈ selectAtmStrikes strikes u,
      9 / 10 * u ≤ s ∧ s ≤ 11 / 10 * u) ∧
    List.Sorted (· ≤ ·) (selectAtmStrikes strikes u) ∧
    (∀ s ∈ selectAtmStrikes strikes u, ∀ t ∈ qualifyingStrikes strikes u,
      t ∉ selectAtmStrikes strikes u → s ≤ t) := by
  have hsorted :
      List.Sorted (· ≤ ·)
        (List.insertionSort (· ≤ ·) (qualifyingStrikes strikes u)) :=
    List.sorted_insertionSort _ _
  refine ⟨?_, ?_, ?_, ?_⟩
  · unfold selectAtmStrikes
    rw [List.length_take]
    exact Nat.min_le_left _ _
  · intro hu s hs
    have h1 : s ∈ List.insertionSort (· ≤ ·) (qualifyingStrikes strikes u) :=
      List.mem_of_mem_take hs
    have h2 : s ∈ qualifyingStrikes strikes u :=
      (List.mem_insertionSort _).mp h1
    unfold qualifyingStrikes at h2
    rw [if_pos hu] at h2
    have h3 := List.mem_filter.mp h2
    have h4 := h3.2
    simp only [Bool.and_eq_true, decide_eq_true_eq] at h4
    exact h4
  · exact hsorted.sublist (List.take_sublist _ _)
  · intro s hs t ht hnt
    have htL : t ∈ List.insertionSort (· ≤ ·) (qualifyingStrikes strikes u) :=
      (List.mem_insertionSort _).mpr ht
    have hsplit := List.take_append_drop 10
      (List.insertionSort (· ≤ ·) (qualifyingStrikes strikes u))
    have htd : t ∈ (List.insertionSort (· ≤ ·)
        (qualifyingStrikes strikes u)).drop 10 := by
      rcases List.mem_append.mp (by rw [hsplit]; exact htL) with h | h
      · exact absurd h hnt
      · exact h
    exact hsorted.rel_of_mem_take_of_mem_drop hs htd

/-- Witness for C4: probe strikes `[100, 95, 120, 80]` with underlying 100
keep `[95, 100]`, and 95 lies within ±10% of 100. -/
theorem strike_bounding_witness :
    9 / 10 * (100 : ℚ) ≤ 95 ∧ (95 : ℚ) ≤ 11 / 10 * 100 :=
  (strike_bounding [100, 95, 120, 80] 100).2.1 (by norm_num) 95
    (by norm_num [selectAtmStrikes, qualifyingStrikes, List.filter,
      List.insertionSort, List.orderedInsert])

/-- C5 -- Expiry bounding: at most 3 expiries are retained, every retained
expiry date is on or after `now - days`, and an expiry string that fails to
parse is dropped from the filtered list without affecting the other items
(no abort). -/
theorem expiry_bounding (parse : String → Option Int) (now days : Int)
    (all_expiries : List (String × Int)) :
    ((relevantExpiries parse (now - days) all_expiries).take 3).length ≤ 3 ∧
    (∀ x ∈ (relevantExpiries parse (now - days) all_expiries).take 3,
      now - days ≤ x.2.2) ∧
    (∀ l1 l2 bad, parse bad.1 = none →
      relevantExpiries parse (now - days) (l1 ++ bad :: l2) =
        relevantExpiries parse (now - days) (l1 ++ l2)) := by
  refine ⟨?_, ?_, ?_⟩
  · rw [List.length_take]
    exact Nat.min_le_left _ _
  · intro x hx
    have h1 : x ∈ relevantExpiries parse (now - days) all_expiries :=
      List.mem_of_mem_take hx
    unfold relevantExpiries at h1
    rcases List.mem_filterMap.mp h1 with ⟨p, _, hf⟩
    rcases hp : parse p.1 with _ | d
    · rw [hp] at hf; exact absurd hf (by simp)
    · rw [hp] at hf
      dsimp only at hf
      by_cases hd : now - days ≤ d
      · rw [if_pos hd] at hf
        cases hf
        exact hd
      · rw [if_neg hd] at hf
        exact absurd hf (by simp)
  · intro l1 l2 bad hbad
    unfold relevantExpiries
    rw [List.filterMap_append, List.filterMap_append, List.filterMap_cons,
      hbad]

/-- Witness for C5 at a concrete parse table and accumulated list. -/
theorem expiry_bounding_witness :
    ((150 : ℤ) - 100 ≤ 100) ∧
    relevantExpiries
        (fun s => if s = "A" then some 100 else if s = "B" then some 200
          else none)
        (150 - 100) [("A", 2025), ("bad", 2025), ("B", 2025)] =
      relevantExpiries
        (fun s => if s = "A" then some 100 else if s = "B" then some 200
          else none)
        (150 - 100) [("A", 2025), ("B", 2025)] := by
  constructor
  · exact (expiry_bounding
      (fun s => if s = "A" then some 100 else if s = "B" then some 200
        else none) 150 100 [("A", 2025), ("bad", 2025), ("B", 2025)]).2.1
      ("A", 2025, 100) (by decide)
  · exact (expiry_bounding
      (fun s => if s = "A" then some 100 else if s = "B" then some 200
        else none) 150 100 [("A", 2025), ("bad", 2025), ("B", 2025)]).2.2
      [("A", 2025)] [("B", 2025)] ("bad", 2025) (by decide)

theorem relevantExpiries_cons (parse : String → Option Int) (start : Int)
    (p : String × Int) (l : List (String × Int)) :
    relevantExpiries parse start (p :: l) =
      (match parse p.1 with
       | some d => if start ≤ d then [(p.1, p.2, d)] else []
       | none => []) ++ relevantExpiries parse start l := by
  unfold relevantExpiries
  rw [List.filterMap_cons]
  rcases hp : parse p.1 with _ | d <;> dsimp only
  · rfl
  · by_cases hd : start ≤ d
    · rw [if_pos hd, if_pos hd]; rfl
    · rw [if_neg hd, if_neg hd]; rfl

theorem relevantExpiries_proj_sublist (parse : String → Option Int)
    (start : Int) (l : List (String × Int)) :
    ((relevantExpiries parse start l).map fun x => (x.1, x.2.1)).Sublist l := by
  induction l with
  | nil => simp [relevantExpiries]
  | cons p l ih =>
    rw [relevantExpiries_cons]
    rcases hp : parse p.1 with _ | d <;> dsimp only
    · simpa using ih.cons p
    · by_cases hd : start ≤ d
      · rw [if_pos hd]
        simpa using ih.cons₂ p
      · rw [if_neg hd]
        simpa using ih.cons p

/-- The concrete parse table used by the C6 counterexample: four well-formed
expiry strings with day values 10, 20, 30 and 100. -/
def parseC6 : String → Option Int := fun s =>
  if s = "E10" then some 10
  else if s = "E20" then some 20
  else if s = "E30" then some 30
  else if s = "E100" then some 100
  else none

/-- An accumulation order in which the farthest expiry arrives first. -/
def accumC6 : List (String × Int) :=
  [("E100", 2025), ("E10", 2025), ("E20", 2025), ("E30", 2025)]

/-- The same expiry set accumulated in date order. -/
def accumC6sorted : List (String × Int) :=
  [("E10", 2025), ("E20", 2025), ("E30", 2025), ("E100", 2025)]

/-- C6 counterexample: with lookback start 0 and four qualifying expiries
accumulated as `accumC6`, the retained top-3 keeps the farthest expiry
(day 100) and drops a nearer qualifying one (day 30), so the retained set is
not the 3 nearest qualifying expiries; and permuting the accumulation order
changes the retained set, so the truncation is not reproducible regardless of
accumulation order. -/
theorem expiry_selection_order_counterexample :
    (relevantExpiries parseC6 0 accumC6).take 3 =
      [("E100", 2025, 100), ("E10", 2025, 10), ("E20", 2025, 20)] ∧
    ("E30", (2025 : ℤ), (30 : ℤ)) ∈ relevantExpiries parseC6 0 accumC6 ∧
    ("E30", (2025 : ℤ), (30 : ℤ)) ∉ (relevantExpiries parseC6 0 accumC6).take 3 ∧
    ("E100", (2025 : ℤ), (100 : ℤ)) ∈ (relevantExpiries parseC6 0 accumC6).take 3 ∧
    (30 : ℤ) < 100 ∧
    accumC6sorted.Perm accumC6 ∧
    (relevantExpiries parseC6 0 accumC6sorted).take 3 ≠
      (relevantExpiries parseC6 0 accumC6).take 3 := by
  decide

/-- C6 amended -- Expiry selection order: the (at most 3) retained expiries
are the *first* qualifying expiries in the order the per-year responses
accumulated them (a prefix of the qualifying list, order-preserving with
respect to the accumulated list); no sort is applied, so the truncation
depends on that accumulation order. -/
theorem expiry_selection_order_amended (parse : String → Option Int)
    (start : Int) (all_expiries : List (String × Int)) :
    (∃ rest, relevantExpiries parse start all_expiries =
      (relevantExpiries parse start all_expiries).take 3 ++ rest) ∧
    ((relevantExpiries parse start all_expiries).take 3).length ≤ 3 ∧
    (∀ x ∈ (relevantExpiries parse start all_expiries).take 3,
      parse x.1 = some x.2.2 ∧ start ≤ x.2.2 ∧ (x.1, x.2.1) ∈ all_expiries) ∧
    (((relevantExpiries parse start all_expiries).take 3).map
      fun x => (x.1, x.2.1)).Sublist all_expiries := by
  refine ⟨⟨(relevantExpiries parse start all_expiries).drop 3,
    (List.take_append_drop 3 _).symm⟩, ?_, ?_, ?_⟩
  · rw [List.length_take]
    exact Nat.min_le_left _ _
  · intro x hx
    have h1 : x ∈ relevantExpiries parse start all_expiries :=
      List.mem_of_mem_take hx
    unfold relevantExpiries at h1
    rcases List.mem_filterMap.mp h1 with ⟨p, hpmem, hf⟩
    rcases hp : parse p.1 with _ | d
    · rw [hp] at hf; exact absurd hf (by simp)
    · rw [hp] at hf
      dsimp only at hf
      by_cases hd : start ≤ d
      · rw [if_pos hd] at hf
        cases hf
        exact ⟨hp, hd, hpmem⟩
      · rw [if_neg hd] at hf
        exact absurd hf (by simp)
  · exact ((List.take_sublist 3 _).map _).trans
      (relevantExpiries_proj_sublist parse start all_expiries)

/-- Witness for the amended C6 at the concrete counterexample input. -/
theorem expiry_selection_order_amended_witness :
    parseC6 "E100" = some 100 ∧ (0 : ℤ) ≤ 100 ∧
      ("E100", (2025 : ℤ)) ∈ accumC6 :=
  (expiry_selection_order_amended parseC6 0 accumC6).2.2.1
    ("E100", 2025, 100) (by decide)

/-! ## Orchestrator lemmas: where audit entries are written

The expiry/strike processing loops write quote rows but never touch the
audit log; each `fetch_stock_historical` call appends exactly one audit
entry, tagged `historical`. -/

theorem processOne_log (env : FetchEnv) (symbol : String) (year : Int)
    (expiry : String) (fromDate toDate : Int) (strike : ℚ)
    (optionType : String) (st : Store) :
    ((processOne env symbol year expiry fromDate toDate strike optionType
      st).2).fetchLog = st.fetchLog := by
  unfold processOne
  rcases (fetchUrl (env.dataOracle
      ⟨fromDate, toDate, symbol, year, expiry, optionType, some strike⟩)).1
    with e | (_ | rows)
  · rfl
  · rfl
  · dsimp only
    split <;> rfl

theorem processStrikes_log (env : FetchEnv) (symbol : String) (year : Int)
    (expiry : String) (fromDate toDate : Int) (strikes : List ℚ) (st : Store)
    (acc : Int) :
    ((processStrikes env symbol year expiry fromDate toDate strikes st
      acc).2).fetchLog = st.fetchLog := by
  induction strikes generalizing st acc with
  | nil => rfl
  | cons strike rest ih =>
    unfold processStrikes
    split
    next e st1 heq =>
      have h1 := processOne_log env symbol year expiry fromDate toDate strike
        "CE" st
      rw [heq] at h1
      exact h1
    next n1 st1 heq =>
      have h1 := processOne_log env symbol year expiry fromDate toDate strike
        "CE" st
      rw [heq] at h1
      split
      next e st2 heq2 =>
        have h2 := processOne_log env symbol year expiry fromDate toDate
          strike "PE" st1
        rw [heq2] at h2
        exact h2.trans h1
      next n2 st2 heq2 =>
        have h2 := processOne_log env symbol year expiry fromDate toDate
          strike "PE" st1
        rw [heq2] at h2
        rw [ih st2 (acc + n1 + n2)]
        exact h2.trans h1

theorem fetch_end_clamp (now e : Int) :
    (if now < min e now then now else min e now) = min e now :=
  if_neg (not_lt.mpr (min_le_right e now))

theorem processExpiries_log (env : FetchEnv) (symbol : String) (start : Int)
    (l : List (String × Int × Int)) (st : Store) (total : Int) :
    ((processExpiries env symbol start l st total).2).fetchLog =
      st.fetchLog := by
  induction l generalizing st total with
  | nil => rfl
  | cons x rest ih =>
    rcases x with ⟨expiry_str, year, expiry_date⟩
    unfold processExpiries
    dsimp only
    rw [fetch_end_clamp]
    split
    · exact ih st total
    · split
      next e heq => rfl
      next heq => exact ih st total
      next rows heq =>
        split
        next => exact ih st total
        next r0 rtail =>
          split
          next e st1 heq2 =>
            have h1 := processStrikes_log env symbol year expiry_str
              (max (expiry_date - 90) start) (min expiry_date env.now)
              (selectAtmStrikes
                (((r0 :: rtail).map fun it => it.FH_STRIKE_PRICE).dedup)
                (r0.FH_UNDERLYING_VALUE.getD 0)) st 0
            rw [heq2] at h1
            exact h1
          next expiry_records st1 heq2 =>
            have h1 := processStrikes_log env symbol year expiry_str
              (max (expiry_date - 90) start) (min expiry_date env.now)
              (selectAtmStrikes
                (((r0 :: rtail).map fun it => it.FH_STRIKE_PRICE).dedup)
                (r0.FH_UNDERLYING_VALUE.getD 0)) st 0
            rw [heq2] at h1
            rw [ih st1 (total + expiry_records)]
            exact h1

theorem fetchBody_log (env : FetchEnv) (ycfg : Option (List Int))
    (symbol : String) (days : Int) (st : Store) :
    (∃ e st1, fetchBody env ycfg symbol days st = (.error e, st1) ∧
      st1.fetchLog = st.fetchLog) ∨
    (∃ n st1 entry, fetchBody env ycfg symbol days st = (.ok n, st1) ∧
      st1.fetchLog = st.fetchLog ++ [entry] ∧
      entry.run_type = "historical" ∧ entry.symbol = symbol ∧
      entry.records_fetched = n ∧ entry.error_message = none ∧
      (entry.status = "NO_EXPIRIES" ∨ entry.status = "SUCCESS")) := by
  unfold fetchBody
  split
  next e heq => exact Or.inl ⟨e, st, rfl, rfl⟩
  next all heq =>
    split
    · exact Or.inr ⟨0, _, _, rfl, rfl, rfl, rfl, rfl, rfl, Or.inl rfl⟩
    · dsimp only
      split
      next e st1 heq2 =>
        have h1 := processExpiries_log env symbol (env.now - days)
          ((relevantExpiries env.parse (env.now - days) all).take 3) st 0
        rw [heq2] at h1
        exact Or.inl ⟨e, st1, rfl, h1⟩
      next total st1 heq2 =>
        have h1 := processExpiries_log env symbol (env.now - days)
          ((relevantExpiries env.parse (env.now - days) all).take 3) st 0
        rw [heq2] at h1
        dsimp only at h1
        exact Or.inr ⟨total, _, ⟨"historical", symbol, "SUCCESS", total, none⟩,
          rfl, by simp [log_fetch, h1], rfl, rfl, rfl, rfl, Or.inr rfl⟩

/-- Every call of `fetch_stock_historical` returns normally with an integer
(the symbol-level `except` swallows every exception) and appends exactly one
audit entry, tagged `historical` for this symbol; when the `try` body raised,
that entry is the ERROR entry with zero records and the exception text. -/
theorem fetch_stock_historical_spec (env : FetchEnv)
    (ycfg : Option (List Int)) (symbol : String) (days : Int) (st : Store) :
    ∃ n st1 entry,
      fetch_stock_historical env ycfg symbol days st = (.ok n, st1) ∧
      st1.fetchLog = st.fetchLog ++ [entry] ∧
      entry.run_type = "historical" ∧ entry.symbol = symbol ∧
      (∀ e, (fetchBody env ycfg symbol days st).1 = .error e →
        n = 0 ∧ entry = ⟨"historical", symbol, "ERROR", 0, some e⟩) ∧
      (entry.status = "NO_EXPIRIES" ∨ entry.status = "SUCCESS" ∨
        entry.status = "ERROR") := by
  rcases fetchBody_log env ycfg symbol days st with
    ⟨e, stE, heq, hlog⟩ |
    ⟨n, st1, entry, heq, hlog, hrt, hsym, hrec, herr, hstat⟩
  · refine ⟨0, log_fetch stE "historical" symbol "ERROR" 0 (some e),
      ⟨"historical", symbol, "ERROR", 0, some e⟩, ?_, ?_, rfl, rfl, ?_,
      Or.inr (Or.inr rfl)⟩
    · unfold fetch_stock_historical
      rw [heq]
    · simp only [log_fetch, hlog]
    · intro e' he'
      rw [heq] at he'
      cases he'
      exact ⟨rfl, rfl⟩
  · refine ⟨n, st1, entry, ?_, hlog, hrt, hsym, ?_, ?_⟩
    · unfold fetch_stock_historical
      rw [heq]
    · intro e he
      rw [heq] at he
      exact absurd he (by simp)
    · rcases hstat with h | h
      · exact Or.inl h
      · exact Or.inr (Or.inl h)

instance {ε α : Type} [DecidableEq ε] [DecidableEq α] :
    DecidableEq (Except ε α) := fun x y =>
  match x, y with
  | .error a, .error b =>
    if h : a = b then .isTrue (congrArg Except.error h)
    else .isFalse fun hc => h (Except.error.inj hc)
  | .error _, .ok _ => .isFalse fun hc => Except.noConfusion hc
  | .ok _, .error _ => .isFalse fun hc => Except.noConfusion hc
  | .ok a, .ok b =>
    if h : a = b then .isTrue (congrArg Except.ok h)
    else .isFalse fun hc => h (Except.ok.inj hc)

/-- A world where every expiry-list request answers 200 with no usable
payload: every symbol discovers no expiries. -/
def envNoEx : FetchEnv :=
  { now := 100
    nowYear := 2024
    parse := fun _ => none
    expiryOracle := fun _ _ _ => .ok none
    dataOracle := fun _ _ => .ok none }

/-- A world where every expiry-list request raises a non-transient
exception: the symbol-level `try` body always raises. -/
def envFatal : FetchEnv :=
  { now := 100
    nowYear := 2024
    parse := fun _ => none
    expiryOracle := fun _ _ _ => .fatal "boom"
    dataOracle := fun _ _ => .ok none }

/-- A world where expiries accumulate but none qualifies: the only expiry
string parses to day 0, before the lookback start. -/
def envStale : FetchEnv :=
  { now := 100
    nowYear := 2024
    parse := fun s => if s = "OLD" then some 0 else none
    expiryOracle := fun _ _ _ => .ok (some ["OLD"])
    dataOracle := fun _ _ => .ok none }

/-- C10 -- The ERROR branch of `fetch_daily_data` is unreachable:
`fetch_stock_historical` catches every exception internally and always
returns an integer, so every daily fetch appends a `daily`/`SUCCESS` audit
entry — even when the underlying historical fetch's body raised, in which
case the log (also) holds that symbol's `historical`/`ERROR` entry with 0
records. -/
theorem daily_error_branch_unreachable (env : FetchEnv)
    (ycfg : Option (List Int)) (symbol : String) (st : Store) :
    ∃ n st1,
      fetch_stock_historical env ycfg symbol 2 st = (.ok n, st1) ∧
      fetch_daily_data env ycfg symbol st =
        (.ok n, log_fetch st1 "daily" symbol "SUCCESS" n none) ∧
      (∀ e, (fetchBody env ycfg symbol 2 st).1 = .error e →
        n = 0 ∧ (⟨"historical", symbol, "ERROR", 0, some e⟩ : LogEntry) ∈
          st1.fetchLog) := by
  obtain ⟨n, st1, entry, heq, hlog, hrt, hsym, herr, hstat⟩ :=
    fetch_stock_historical_spec env ycfg symbol 2 st
  refine ⟨n, st1, heq, ?_, ?_⟩
  · unfold fetch_daily_data
    rw [heq]
  · intro e he
    obtain ⟨hn, hentry⟩ := herr e he
    refine ⟨hn, ?_⟩
    rw [hlog]
    refine List.mem_append_right _ ?_
    rw [← hentry]
    exact List.mem_singleton_self entry

/-- Witness for C10: in a world where the fetch body always raises, the
daily fetch's final log still holds the inner historical ERROR entry, and
(by the theorem) the daily SUCCESS entry was appended after it. -/
theorem daily_error_branch_unreachable_witness :
    (⟨"historical", "X", "ERROR", 0, some "boom"⟩ : LogEntry) ∈
      (fetch_daily_data envFatal (some [2024]) "X" ⟨[], []⟩).2.fetchLog := by
  obtain ⟨n, st1, h1, h2, h3⟩ :=
    daily_error_branch_unreachable envFatal (some [2024]) "X" ⟨[], []⟩
  obtain ⟨hn, hmem⟩ := h3 "boom" (by decide)
  rw [h2]
  exact List.mem_append_left _ hmem

/-- C7 counterexample: one daily fetch attempt of symbol `X` (in a world
where discovery finds no expiries) appends TWO audit entries — the inner
`historical` one and the `daily` one — not exactly one. -/
theorem single_audit_entry_counterexample :
    (fetch_daily_data envNoEx (some [2024]) "X" ⟨[], []⟩).2.fetchLog =
      [⟨"historical", "X", "NO_EXPIRIES", 0, none⟩,
        ⟨"daily", "X", "SUCCESS", 0, none⟩] ∧
    (fetch_daily_data envNoEx (some [2024]) "X" ⟨[], []⟩).2.fetchLog.length
      ≠ 1 := by
  decide

/-- C7 amended -- Audit entries per attempt: a historical fetch of a symbol
appends exactly one audit entry (tagged `historical`); a daily fetch appends
exactly two — the inner `historical` entry of the underlying 2-day
historical fetch, followed by one `daily`-tagged entry whose status is
always SUCCESS. -/
theorem audit_entries_per_attempt_amended (env : FetchEnv)
    (ycfg : Option (List Int)) (symbol : String) (days : Int) (st : Store) :
    (∃ n st1 entry,
      fetch_stock_historical env ycfg symbol days st = (.ok n, st1) ∧
      st1.fetchLog = st.fetchLog ++ [entry] ∧
      entry.run_type = "historical" ∧ entry.symbol = symbol) ∧
    (∃ n st2 hist_entry,
      fetch_daily_data env ycfg symbol st = (.ok n, st2) ∧
      st2.fetchLog = st.fetchLog ++
        [hist_entry, ⟨"daily", symbol, "SUCCESS", n, none⟩] ∧
      hist_entry.run_type = "historical") := by
  constructor
  · obtain ⟨n, st1, entry, heq, hlog, hrt, hsym, _, _⟩ :=
      fetch_stock_historical_spec env ycfg symbol days st
    exact ⟨n, st1, entry, heq, hlog, hrt, hsym⟩
  · obtain ⟨n, st1, entry, heq, hlog, hrt, _, _, _⟩ :=
      fetch_stock_historical_spec env ycfg symbol 2 st
    refine ⟨n, log_fetch st1 "daily" symbol "SUCCESS" n none, entry, ?_, ?_,
      hrt⟩
    · unfold fetch_daily_data
      rw [heq]
    · simp [log_fetch, hlog]

/-- C8 counterexample: in a world where no expiries accumulate, the fetch
does return 0 records but the audit entry's status is the string
`NO_EXPIRIES`, which is none of the documented enum values SUCCESS, ERROR,
NO_DATA. -/
theorem no_expiries_status_counterexample :
    fetch_stock_historical envNoEx (some [2024]) "X" 90 ⟨[], []⟩ =
      (.ok 0, ⟨[], [⟨"historical", "X", "NO_EXPIRIES", 0, none⟩]⟩) ∧
    ("NO_EXPIRIES" : String) ≠ "SUCCESS" ∧
    ("NO_EXPIRIES" : String) ≠ "ERROR" ∧
    ("NO_EXPIRIES" : String) ≠ "NO_DATA" := by
  decide

/-- C8 amended -- No-expiries reporting: when no expiry at all accumulates,
the fetch logs one entry with the out-of-enum status `NO_EXPIRIES` and 0
records and returns 0; when expiries accumulate but none qualifies after
the lookback filter, the loop body never runs and the fetch logs a
`SUCCESS` entry with 0 records and returns 0 (no `no expiries` report). -/
theorem no_expiries_reporting_amended (env : FetchEnv)
    (ycfg : Option (List Int)) (symbol : String) (days : Int) (st : Store) :
    (getAllExpiries env symbol (yearsToCheck env ycfg) = .ok [] →
      fetch_stock_historical env ycfg symbol days st =
        (.ok 0, log_fetch st "historical" symbol "NO_EXPIRIES" 0 none)) ∧
    (∀ l, getAllExpiries env symbol (yearsToCheck env ycfg) = .ok l →
      l ≠ [] → relevantExpiries env.parse (env.now - days) l = [] →
      fetch_stock_historical env ycfg symbol days st =
        (.ok 0, log_fetch st "historical" symbol "SUCCESS" 0 none)) := by
  constructor
  · intro h
    unfold fetch_stock_historical fetchBody
    rw [h]
    rfl
  · intro l h hne hrel
    have hfalse : ¬(l.isEmpty = true) := by
      cases l with
      | nil => exact absurd rfl hne
      | cons a l => simp
    unfold fetch_stock_historical fetchBody
    simp only [h]
    rw [if_neg hfalse]
    rw [hrel]
    rfl

/-- Witness for the amended C8: both branches at concrete worlds. -/
theorem no_expiries_reporting_amended_witness :
    fetch_stock_historical envNoEx (some [2024]) "X" 90 ⟨[], []⟩ =
      (.ok 0, log_fetch ⟨[], []⟩ "historical" "X" "NO_EXPIRIES" 0 none) ∧
    fetch_stock_historical envStale (some [2024]) "X" 90 ⟨[], []⟩ =
      (.ok 0, log_fetch ⟨[], []⟩ "historical" "X" "SUCCESS" 0 none) :=
  ⟨(no_expiries_reporting_amended envNoEx (some [2024]) "X" 90
      ⟨[], []⟩).1 (by decide),
    (no_expiries_reporting_amended envStale (some [2024]) "X" 90
      ⟨[], []⟩).2 [("OLD", 2024)] (by decide) (by decide) (by decide)⟩

theorem run_unfold_cons (env : FetchEnv) (ycfg : Option (List Int))
    (days : Int) (s : String) (l : List String) (st : Store) :
    run_historical_fetch env ycfg days (s :: l) st =
      match fetch_stock_historical env ycfg s days st with
      | (.error e, st1) => (.error e, st1)
      | (.ok records, st1) =>
        match run_historical_fetch env ycfg days l st1 with
        | (.error e, st2) => (.error e, st2)
        | (.ok tail, st2) => (.ok ((s, records) :: tail), st2) := rfl

theorem run_cons (env : FetchEnv) (ycfg : Option (List Int)) (days : Int)
    (s : String) (l : List String) (st : Store) :
    (run_historical_fetch env ycfg days (s :: l) st).2 =
      (run_historical_fetch env ycfg days l
        ((fetch_stock_historical env ycfg s days st).2)).2 := by
  obtain ⟨n, st1, entry, heq, -, -, -, -, -⟩ :=
    fetch_stock_historical_spec env ycfg s days st
  rw [run_unfold_cons, heq]
  dsimp only
  rcases hr : run_historical_fetch env ycfg days l st1 with ⟨r2, st2⟩
  rcases r2 with e | tail <;> rfl

theorem run_historical_ok (env : FetchEnv) (ycfg : Option (List Int))
    (days : Int) : ∀ (l : List String) (st : Store),
    ∃ rs st1, run_historical_fetch env ycfg days l st = (.ok rs, st1) ∧
      rs.map Prod.fst = l ∧ ∃ tail, st1.fetchLog = st.fetchLog ++ tail := by
  intro l
  induction l with
  | nil => exact fun st => ⟨[], st, rfl, rfl, [], by simp⟩
  | cons s l ih =>
    intro st
    obtain ⟨n, st1, entry, heq, hlog, -, -, -, -⟩ :=
      fetch_stock_historical_spec env ycfg s days st
    obtain ⟨rs, st2, hr, hmap, tail, htail⟩ := ih st1
    refine ⟨(s, n) :: rs, st2, ?_, ?_, entry :: tail, ?_⟩
    · rw [run_unfold_cons, heq]
      dsimp only
      rw [hr]
    · simp [hmap]
    · rw [htail, hlog]
      simp

theorem run_store_append (env : FetchEnv) (ycfg : Option (List Int))
    (days : Int) : ∀ (l1 l2 : List String) (st : Store),
    (run_historical_fetch env ycfg days (l1 ++ l2) st).2 =
      (run_historical_fetch env ycfg days l2
        ((run_historical_fetch env ycfg days l1 st).2)).2 := by
  intro l1
  induction l1 with
  | nil => exact fun l2 st => rfl
  | cons s l1 ih =>
    intro l2 st
    rw [List.cons_append, run_cons, run_cons, ih]

/-- C1 -- Failure isolation: the batch driver returns one
`(symbol, records)` entry for every symbol of the list, in order, and
whenever the `try` body of some symbol's fetch raises (at the store state
that symbol is actually run in), that symbol's attempt is recorded in the
audit log of the final state as a `historical`/`ERROR` entry with 0 records
— while the symbols before and after it still get their result entries. -/
theorem batch_failure_isolation (env : FetchEnv) (ycfg : Option (List Int))
    (days : Int) (stocks : List String) (st : Store) :
    (∃ rs st1, run_historical_fetch env ycfg days stocks st = (.ok rs, st1) ∧
      rs.map Prod.fst = stocks) ∧
    (∀ pre symbol post e, stocks = pre ++ symbol :: post →
      (fetchBody env ycfg symbol days
        ((run_historical_fetch env ycfg days pre st).2)).1 = .error e →
      (⟨"historical", symbol, "ERROR", 0, some e⟩ : LogEntry) ∈
        (run_historical_fetch env ycfg days stocks st).2.fetchLog) := by
  constructor
  · obtain ⟨rs, st1, hr, hmap, -⟩ := run_historical_ok env ycfg days stocks st
    exact ⟨rs, st1, hr, hmap⟩
  · intro pre symbol post e hdecomp herr
    subst hdecomp
    obtain ⟨n, st1, entry, heq, hlog, -, -, hE, -⟩ :=
      fetch_stock_historical_spec env ycfg symbol days
        ((run_historical_fetch env ycfg days pre st).2)
    obtain ⟨hn, hentry⟩ := hE e herr
    rw [run_store_append, run_cons, heq]
    obtain ⟨rs2, st2, hr2, -, tail2, htail2⟩ :=
      run_historical_ok env ycfg days post st1
    dsimp only
    rw [hr2]
    dsimp only
    rw [htail2, hlog, ← hentry]
    exact List.mem_append_left _ (List.mem_append_right _
      (List.mem_singleton_self entry))

/-- The batch world of the C1 witness: discovery raises a non-transient
exception for symbol `B` only; other symbols find no expiries. -/
def envC1 : FetchEnv :=
  { now := 100
    nowYear := 2024
    parse := fun _ => none
    expiryOracle := fun s _ _ => if s = "B" then .fatal "boom" else .ok none
    dataOracle := fun _ _ => .ok none }

/-- Witness for C1: in the batch `[A, B, C]` where `B`'s fetch body raises,
the final audit log holds `B`'s ERROR entry with 0 records. -/
theorem batch_failure_isolation_witness :
    (⟨"historical", "B", "ERROR", 0, some "boom"⟩ : LogEntry) ∈
      (run_historical_fetch envC1 (some [2024]) 90 ["A", "B", "C"]
        ⟨[], []⟩).2.fetchLog :=
  (batch_failure_isolation envC1 (some [2024]) 90 ["A", "B", "C"]
    ⟨[], []⟩).2 ["A"] "B" ["C"] "boom" rfl (by decide)

/-- C9 -- Every construction of `NSEOptionsFetcher` fails with the
unbound-name error on the local `config`, read in `load_config` before any
assignment: the constructor never completes normally (so `years_to_check` is
never set from configuration and the config-file stock override is never
reached). -/
theorem constructor_always_unbound_config (db_path : String) (ex : Bool)
    (cf : ConfigJson) :
    NSEOptionsFetcher_init db_path ex cf =
      .error (.unboundLocalError "config") := rfl

end NseFetcher
